import Mathlib

/-!
Verification of the MongoManager repository (Clutter-Development/MongoManager):
a dotted-path accessor layer over a document database plus a read-through
cache.  The Python sources `mongo_manager/misc.py`, `mongo_manager/manager.py`
and `mongo_manager/cacher.py` are shallowly embedded below.

Python values are modelled by `PyVal`; Python dicts become association lists
(insertion ordered, string keys, as all documents in this library use).  The
MongoDB client is an external collaborator of the repository; its
`find_one` / `insert_one` / `update_one` / `delete_one` / `drop` primitives
are modelled with their standard single-document semantics on an in-memory
database.  The `lru` package's LRU dict is modelled as a
most-recently-used-first association list; its deletion of an absent key
raises `KeyError`, as the real C implementation does.
-/

set_option autoImplicit false

namespace MongoMgr

/-- Model of the Python values this library manipulates: ints (arbitrary
precision), strings, booleans, `None`, lists and string-keyed dicts. -/
inductive PyVal where
  | pyint : Int → PyVal
  | pystr : String → PyVal
  | pybool : Bool → PyVal
  | pynone : PyVal
  | pylist : List PyVal → PyVal
  | pydict : List (String × PyVal) → PyVal

mutual

/-- Structural equality of modelled Python values (the `==` used by list
membership on the values this library stores). -/
def PyVal.beq : PyVal → PyVal → Bool
  | .pyint a, .pyint b => a == b
  | .pystr a, .pystr b => a == b
  | .pybool a, .pybool b => a == b
  | .pynone, .pynone => true
  | .pylist a, .pylist b => PyVal.beqList a b
  | .pydict a, .pydict b => PyVal.beqEntries a b
  | _, _ => false

/-- Elementwise equality of value lists. -/
def PyVal.beqList : List PyVal → List PyVal → Bool
  | [], [] => true
  | a :: as, b :: bs => PyVal.beq a b && PyVal.beqList as bs
  | _, _ => false

/-- Entrywise equality of dict entry lists. -/
def PyVal.beqEntries :
    List (String × PyVal) → List (String × PyVal) → Bool
  | [], [] => true
  | (k, v) :: as, (k₂, w) :: bs =>
      k == k₂ && PyVal.beq v w && PyVal.beqEntries as bs
  | _, _ => false

end

instance : BEq PyVal := ⟨PyVal.beq⟩

/-- Dot-splitting of a character list, structurally recursive so that
concrete runs reduce definitionally. -/
def splitDotsChars (cs : List Char) : List (List Char) :=
  match cs with
  | [] => [[]]
  | c :: rest =>
      if c = '.' then [] :: splitDotsChars rest
      else
        match splitDotsChars rest with
        | [] => [[c]]
        | p :: ps => (c :: p) :: ps

/-- Python's `s.split(".")`: every maximal dot-free piece, so the result is
never empty and `"".split(".") == [""]`. -/
def pySplitDot (s : String) : List String :=
  (splitDotsChars s.toList).map (fun cs => String.mk cs)

/-- Python truthiness of a dict entry list is emptiness; `isDict` mirrors
Python's `isinstance(value, dict)`. -/
def PyVal.isDict : PyVal → Bool
  | .pydict _ => true
  | _ => false

/-- First-match association-list lookup (Python dict access `d[k]`). -/
def dictGet (entries : List (String × PyVal)) (k : String) : Option PyVal :=
  match entries with
  | [] => none
  | (k₂, v) :: rest => if k₂ = k then some v else dictGet rest k

/-- Python dict assignment `d[k] = v`: update the existing entry in place,
or append a new one. -/
def dictSet (entries : List (String × PyVal)) (k : String) (v : PyVal) :
    List (String × PyVal) :=
  match entries with
  | [] => [(k, v)]
  | (k₂, w) :: rest =>
      if k₂ = k then (k, v) :: rest else (k₂, w) :: dictSet rest k v

/-- Python dict merge `{**a, **b}`: entries of `b` override / extend `a`. -/
def dictMerge (a b : List (String × PyVal)) : List (String × PyVal) :=
  b.foldl (fun acc e => dictSet acc e.1 e.2) a

/-- `misc.create_nested_dict`, list-path case: the loop builds single-key
dicts along `path[:-1]` and puts `value` under the last key.  (The Python
function returns `value` itself on an empty path; the string entry point
below performs that check before splitting, as the source does via
`if not path`.) -/
def create_nested_dict_list (path : List String) (value : PyVal) : PyVal :=
  match path with
  | [] => value
  | [k] => .pydict [(k, value)]
  | k :: k₂ :: rest => .pydict [(k, create_nested_dict_list (k₂ :: rest) value)]

/-- `misc.create_nested_dict` on a string path: `if not path: return value`,
otherwise recurse on `path.split(".")` (the emptiness check cuts the
empty-string case off before any split, as in the source). -/
def create_nested_dict (path : String) (value : PyVal) : PyVal :=
  if path = "" then value
  else create_nested_dict_list (pySplitDot path) value

/-- `misc.find_in_nested_dict`, list-path case: walk the keys; a `KeyError`
(missing key) or `TypeError` (indexing a non-dict with a string) is caught
and yields `default`. -/
def find_in_nested_dict_list (find_in : PyVal) (path : List String)
    (default : PyVal) : PyVal :=
  match path with
  | [] => find_in
  | k :: rest =>
      match find_in with
      | .pydict entries =>
          match dictGet entries k with
          | some v => find_in_nested_dict_list v rest default
          | none => default
      | _ => default

/-- `misc.find_in_nested_dict` on a string path: the source always splits
(`path.split(".")`), with no emptiness check — so the empty string becomes
the one-element key list containing the empty key. -/
def find_in_nested_dict (find_in : PyVal) (path : String) (default : PyVal) :
    PyVal :=
  find_in_nested_dict_list find_in (pySplitDot path) default

/-- One character of a Python `int()` digit run after the first: digits with
single underscores allowed between digits. -/
def pyDigitsRest : List Char → Bool
  | [] => true
  | '_' :: c :: rest => c.isDigit && pyDigitsRest rest
  | c :: rest => c.isDigit && pyDigitsRest rest

/-- A nonempty Python digit run: starts with a digit, single underscores only
between digits. -/
def pyDigitRun : List Char → Bool
  | [] => false
  | c :: rest => c.isDigit && pyDigitsRest rest

/-- Numeric value of a digit run, underscores skipped. -/
def pyDigitsVal (cs : List Char) : Nat :=
  cs.foldl (fun acc c => if c = '_' then acc else acc * 10 + (c.toNat - 48)) 0

/-- Python `int(s)` on a string: strip surrounding whitespace, optional
sign, then a digit run (arbitrary precision).  `none` models the
`ValueError` raised on anything else. -/
def pyIntParse (s : String) : Option Int :=
  let cs :=
    ((s.toList.dropWhile Char.isWhitespace).reverse.dropWhile
      Char.isWhitespace).reverse
  match cs with
  | '+' :: rest =>
      if pyDigitRun rest then some (pyDigitsVal rest) else none
  | '-' :: rest =>
      if pyDigitRun rest then some (-(pyDigitsVal rest : Int)) else none
  | rest => if pyDigitRun rest then some (pyDigitsVal rest) else none

/-- `misc.maybe_int`: `try: value = int(value) finally: return value` — the
conversion result when `int()` succeeds, the original string otherwise
(the `ValueError` is swallowed by the `finally: return`). -/
def maybe_int (s : String) : PyVal :=
  match pyIntParse s with
  | some n => .pyint n
  | none => .pystr s

/-- Python `path.split(".", 2)`: split on dots into at most 3 pieces, the
third keeping its internal dots. -/
def splitMax2 (s : String) : List String :=
  match pySplitDot s with
  | [] => [s]
  | [a] => [a]
  | [a, b] => [a, b]
  | a :: b :: rest => [a, b, String.intercalate "." rest]

/-- Result of `MongoManager._parse_path`: the collection name, the document
`_id` (int or string after `maybe_int`) and the remaining field-path. -/
structure ParsedPath where
  collection : String
  id : PyVal
  fieldPath : String


/-- `MongoManager._parse_path`: split into at most 3 pieces; fewer than 2
raises `ValueError` (modelled as `none`); the id piece goes through
`maybe_int`; the field-path is the third piece, or the empty string
(`next(iter(path), "")`). -/
def parse_path (path : String) : Option ParsedPath :=
  match splitMax2 path with
  | [c, i] => some ⟨c, maybe_int i, ""⟩
  | [c, i, rest] => some ⟨c, maybe_int i, rest⟩
  | _ => none

/-- A stored document: an insertion-ordered string-keyed mapping (always
contains an `_id` entry in this library). -/
abbrev Doc := List (String × PyVal)

/-- A collection: the documents in insertion order. -/
abbrev Collection := List Doc

/-- The logical database: named collections. -/
abbrev Database := List (String × Collection)

/-- The `find_one` projections this library uses. -/
inductive Projection where
  /-- `None`: the whole document. -/
  | all : Projection
  /-- `{"_id": 1}`: only the `_id` field (existence checks in set/push). -/
  | idOnly : Projection
  /-- `{"_id": 0, p: 1}`: only the dotted field `p`, `_id` excluded (get). -/
  | fieldOnly : String → Projection
  /-- `{p: 1}`: the dotted field `p` plus `_id` (pull). -/
  | fieldAndId : String → Projection
  deriving DecidableEq

/-- The store primitives the accessor issues, recorded as a trace so that
frame properties ("a read issues one `find_one` and no write") are facts
about the embedded code rather than about the model's plumbing. -/
inductive StoreOp where
  | findOne : String → PyVal → Projection → StoreOp
  | insertOne : String → Doc → StoreOp
  | updateOne : String → PyVal → StoreOp
  | deleteOne : String → PyVal → StoreOp
  | dropColl : String → StoreOp


/-- Is `op` one of the mutating store primitives? -/
def StoreOp.isWrite : StoreOp → Bool
  | .findOne _ _ _ => false
  | _ => true

/-- MongoDB inclusion projection along one dotted path (split into keys):
keep only the entries on that path.  A missing or non-document intermediate
projects to the empty document — the dotted-path walk below yields its
default on such a result either way. -/
def projectKeys (d : Doc) (keys : List String) : Doc :=
  match keys with
  | [] => d
  | [k] =>
      match dictGet d k with
      | some v => [(k, v)]
      | none => []
  | k :: k₂ :: rest =>
      match dictGet d k with
      | some (.pydict sub) => [(k, .pydict (projectKeys sub (k₂ :: rest)))]
      | _ => []

/-- Apply a `find_one` projection to a fetched document. -/
def projectDoc (proj : Projection) (d : Doc) : Doc :=
  match proj with
  | .all => d
  | .idOnly => d.filter (fun e => e.1 = "_id")
  | .fieldOnly p => projectKeys d (pySplitDot p)
  | .fieldAndId p =>
      d.filter (fun e => e.1 = "_id") ++
        (projectKeys d (pySplitDot p)).filter (fun e => e.1 ≠ "_id")

/-- Does document `d` match the filter `_id == id`? -/
def matchesId (d : Doc) (id : PyVal) : Bool :=
  match dictGet d "_id" with
  | some v => PyVal.beq v id
  | none => false

/-- The documents of a named collection (a collection that was never
created or was dropped reads as empty). -/
def getColl (db : Database) (c : String) : Collection :=
  match db with
  | [] => []
  | (c₂, docs) :: rest => if c₂ = c then docs else getColl rest c

/-- `find_one({"_id": id}, proj)` against collection `c`: first matching
document, projected; `none` models Mongo's `None` result. -/
def findOneDb (db : Database) (c : String) (id : PyVal) (proj : Projection) :
    Option Doc :=
  ((getColl db c).find? (fun d => matchesId d id)).map (projectDoc proj)

/-- A fetched document as a Python value (`None` when absent). -/
def optDocVal : Option Doc → PyVal
  | none => .pynone
  | some d => .pydict d

/-- `insert_one`: append the document to the collection, creating the
collection on first insert. -/
def insertOneDb (db : Database) (c : String) (d : Doc) : Database :=
  match db with
  | [] => [(c, [d])]
  | (c₂, docs) :: rest =>
      if c₂ = c then (c₂, docs ++ [d]) :: rest
      else (c₂, docs) :: insertOneDb rest c d

/-- Update the first document matching the predicate. -/
def updateFirst (p : Doc → Bool) (f : Doc → Doc) : Collection → Collection
  | [] => []
  | d :: ds => if p d then f d :: ds else d :: updateFirst p f ds

/-- Rewrite an existing collection in place (no effect when absent, as for
Mongo's `update_one` / `delete_one` on a nonexistent collection). -/
def mapColl (db : Database) (c : String) (f : Collection → Collection) :
    Database :=
  db.map (fun e => if e.1 = c then (e.1, f e.2) else e)

/-- Mongo `$set` of one dotted path: walk the keys, creating intermediate
documents; a non-document intermediate makes the real server fail the
write, modelled as leaving the value unchanged. -/
def setPathVal (v : PyVal) (keys : List String) (nv : PyVal) : PyVal :=
  match keys with
  | [] => nv
  | k :: rest =>
      match v with
      | .pydict entries =>
          .pydict (dictSet entries k
            (setPathVal ((dictGet entries k).getD (.pydict [])) rest nv))
      | _ => v

/-- Mongo `$unset` of one dotted path: drop the addressed field; absent
paths and non-document intermediates are left untouched. -/
def unsetPathVal (v : PyVal) (keys : List String) : PyVal :=
  match keys with
  | [] => v
  | [k] =>
      match v with
      | .pydict entries => .pydict (entries.filter (fun e => e.1 ≠ k))
      | _ => v
  | k :: k₂ :: rest =>
      match v with
      | .pydict entries =>
          match dictGet entries k with
          | some sub => .pydict (dictSet entries k (unsetPathVal sub (k₂ :: rest)))
          | none => v
      | _ => v

/-- Mongo `$push` of one dotted path: append to the array there, creating
the array (and intermediate documents) when absent; a non-array target
makes the real server fail the write, modelled as no change. -/
def pushPathVal (v : PyVal) (keys : List String) (x : PyVal) : PyVal :=
  match keys with
  | [] => v
  | [k] =>
      match v with
      | .pydict entries =>
          match dictGet entries k with
          | some (.pylist l) => .pydict (dictSet entries k (.pylist (l ++ [x])))
          | some _ => v
          | none => .pydict (dictSet entries k (.pylist [x]))
      | _ => v
  | k :: k₂ :: rest =>
      match v with
      | .pydict entries =>
          .pydict (dictSet entries k
            (pushPathVal ((dictGet entries k).getD (.pydict [])) (k₂ :: rest) x))
      | _ => v

/-- Mongo `$pull` of one dotted path: remove every element equal to `x`
from the array there; absent or non-array targets are untouched. -/
def pullPathVal (v : PyVal) (keys : List String) (x : PyVal) : PyVal :=
  match keys with
  | [] => v
  | [k] =>
      match v with
      | .pydict entries =>
          match dictGet entries k with
          | some (.pylist l) =>
              .pydict (dictSet entries k (.pylist (l.filter (fun y => !PyVal.beq y x))))
          | _ => v
      | _ => v
  | k :: k₂ :: rest =>
      match v with
      | .pydict entries =>
          match dictGet entries k with
          | some sub => .pydict (dictSet entries k (pullPathVal sub (k₂ :: rest) x))
          | none => v
      | _ => v

/-- Apply a document-level update to a document. -/
def applyToDoc (f : PyVal → PyVal) (d : Doc) : Doc :=
  match f (.pydict d) with
  | .pydict entries => entries
  | _ => d

/-- `update_one({"_id": id}, update)` on collection `c`, where the update
acts on the document value. -/
def updateOneDb (db : Database) (c : String) (id : PyVal)
    (f : PyVal → PyVal) : Database :=
  mapColl db c (updateFirst (fun d => matchesId d id) (applyToDoc f))

/-- `delete_one({"_id": id})`: remove the first matching document. -/
def deleteOneDb (db : Database) (c : String) (id : PyVal) : Database :=
  mapColl db c (fun docs =>
    match docs.findIdx? (fun d => matchesId d id) with
    | some i => docs.eraseIdx i
    | none => docs)

/-- `collection.drop()`: remove the collection entirely. -/
def dropCollDb (db : Database) (c : String) : Database :=
  db.filter (fun e => e.1 ≠ c)

/-- Errors surfaced by the accessor layer and the cache layer: the
`ValueError` of `_parse_path` (spec: `InvalidPathError`), the `ValueError`
of `set`'s mapping check and of push/pull's length check (spec:
`InvalidArgumentError` / `InvalidPathError`), Python's `TypeError` from an
`in` test on a non-container, and the LRU dict's `KeyError`. -/
inductive MError where
  | invalidPath : MError
  | invalidArgument : MError
  | typeError : MError
  | keyError : MError
  deriving DecidableEq

/-- Outcome of one accessor operation: the result (or raised error), the
database afterwards, and the store primitives issued, in order. -/
structure MOut (α : Type) where
  result : Except MError α
  db : Database
  trace : List StoreOp

/-- Contiguous-sublist test, used for Python's substring `in`. -/
def charsInfix (needle hay : List Char) : Bool :=
  match hay with
  | [] => needle.isEmpty
  | _ :: rest => needle.isPrefixOf hay || charsInfix needle rest

/-- Python's `x in container` on modelled values: list membership by `==`,
dict key membership, substring test on strings; `in` on anything else
raises `TypeError`. -/
def pyIn (x container : PyVal) : Except MError Bool :=
  match container with
  | .pylist l => .ok (l.any (fun y => PyVal.beq y x))
  | .pydict entries =>
      match x with
      | .pystr s => .ok ((dictGet entries s).isSome)
      | _ => .ok false
  | .pystr s =>
      match x with
      | .pystr t => .ok (charsInfix t.toList s.toList)
      | _ => .error .typeError
  | _ => .error .typeError

/-- Entry list of an assembled nested structure (always a dict on the paths
`set`/`push` build it from; defensive default otherwise). -/
def valEntries : PyVal → List (String × PyVal)
  | .pydict entries => entries
  | _ => []

/-- `MongoManager.get`: parse the path, `find_one` by `_id` with the
whole-document projection when the field-path is empty and the
field-only projection otherwise, then walk the (string) field-path over
the fetched value with `find_in_nested_dict`. -/
def mget (db : Database) (path : String) (default : PyVal) : MOut PyVal :=
  match parse_path path with
  | none => ⟨.error .invalidPath, db, []⟩
  | some pp =>
      let proj :=
        if pp.fieldPath = "" then Projection.all
        else Projection.fieldOnly pp.fieldPath
      let doc? := findOneDb db pp.collection pp.id proj
      ⟨.ok (find_in_nested_dict (optDocVal doc?) pp.fieldPath default), db,
        [.findOne pp.collection pp.id proj]⟩

/-- `MongoManager.set`: parse; with an empty field-path the value must be a
dict (`ValueError` otherwise, before any store traffic); if the document
exists (`find_one` projected to `_id`), `update_one` with
`$set {path: value}` — or `$set value` itself when the field-path is empty;
otherwise `insert_one` of the dict `_id` merged with the assembled nested
structure. -/
def mset (db : Database) (path : String) (value : PyVal) : MOut Unit :=
  match parse_path path with
  | none => ⟨.error .invalidPath, db, []⟩
  | some pp =>
      if pp.fieldPath = "" && !value.isDict then
        ⟨.error .invalidArgument, db, []⟩
      else if (findOneDb db pp.collection pp.id .idOnly).isSome then
        let upd : PyVal → PyVal :=
          if pp.fieldPath = "" then
            fun d =>
              (valEntries value).foldl
                (fun acc e => setPathVal acc (pySplitDot e.1) e.2) d
          else fun d => setPathVal d (pySplitDot pp.fieldPath) value
        ⟨.ok (), updateOneDb db pp.collection pp.id upd,
          [.findOne pp.collection pp.id .idOnly,
            .updateOne pp.collection pp.id]⟩
      else
        let newDoc :=
          dictMerge [("_id", pp.id)]
            (valEntries (create_nested_dict pp.fieldPath value))
        ⟨.ok (), insertOneDb db pp.collection newDoc,
          [.findOne pp.collection pp.id .idOnly,
            .insertOne pp.collection newDoc]⟩

/-- `MongoManager.push`: parse; an empty field-path raises `ValueError`
(≥ 3 segments required); a missing document is inserted with the
field-path assembled around the one-element list; otherwise the duplicate
check `value not in find_in_nested_dict(doc, path, default=[])` runs
against the document fetched with the `_id`-only projection (so `doc`
holds nothing but `_id`), and `$push` appends when it passes. -/
def mpush (db : Database) (path : String) (value : PyVal)
    (allowDuplicates : Bool) : MOut Bool :=
  match parse_path path with
  | none => ⟨.error .invalidPath, db, []⟩
  | some pp =>
      if pp.fieldPath = "" then ⟨.error .invalidPath, db, []⟩
      else
        match findOneDb db pp.collection pp.id .idOnly with
        | none =>
            let newDoc :=
              dictMerge [("_id", pp.id)]
                (valEntries
                  (create_nested_dict pp.fieldPath (.pylist [value])))
            ⟨.ok true, insertOneDb db pp.collection newDoc,
              [.findOne pp.collection pp.id .idOnly,
                .insertOne pp.collection newDoc]⟩
        | some doc =>
            if allowDuplicates then
              ⟨.ok true,
                updateOneDb db pp.collection pp.id
                  (fun d => pushPathVal d (pySplitDot pp.fieldPath) value),
                [.findOne pp.collection pp.id .idOnly,
                  .updateOne pp.collection pp.id]⟩
            else
              match pyIn value
                  (find_in_nested_dict (.pydict doc) pp.fieldPath
                    (.pylist [])) with
              | .error e =>
                  ⟨.error e, db, [.findOne pp.collection pp.id .idOnly]⟩
              | .ok true =>
                  ⟨.ok false, db, [.findOne pp.collection pp.id .idOnly]⟩
              | .ok false =>
                  ⟨.ok true,
                    updateOneDb db pp.collection pp.id
                      (fun d =>
                        pushPathVal d (pySplitDot pp.fieldPath) value),
                    [.findOne pp.collection pp.id .idOnly,
                      .updateOne pp.collection pp.id]⟩

/-- `MongoManager.pull`: parse; an empty field-path raises `ValueError`;
the membership test runs against the document fetched with the
field-plus-`_id` projection; `$pull` removes every equal element when the
value is present, otherwise nothing happens and `False` is returned. -/
def mpull (db : Database) (path : String) (value : PyVal) : MOut Bool :=
  match parse_path path with
  | none => ⟨.error .invalidPath, db, []⟩
  | some pp =>
      if pp.fieldPath = "" then ⟨.error .invalidPath, db, []⟩
      else
        let doc? :=
          findOneDb db pp.collection pp.id (.fieldAndId pp.fieldPath)
        match pyIn value
            (find_in_nested_dict (optDocVal doc?) pp.fieldPath
              (.pylist [])) with
        | .error e =>
            ⟨.error e, db,
              [.findOne pp.collection pp.id (.fieldAndId pp.fieldPath)]⟩
        | .ok true =>
            ⟨.ok true,
              updateOneDb db pp.collection pp.id
                (fun d => pullPathVal d (pySplitDot pp.fieldPath) value),
              [.findOne pp.collection pp.id (.fieldAndId pp.fieldPath),
                .updateOne pp.collection pp.id]⟩
        | .ok false =>
            ⟨.ok false, db,
              [.findOne pp.collection pp.id (.fieldAndId pp.fieldPath)]⟩

/-- `MongoManager.rem`: `path.split(".", 2)`; the `if not path` guard
mirrors the source's check of the split result — `str.split` never returns
an empty list, so that branch is dead code; one piece drops the collection,
two deletes the document by id, three unsets the dotted field. -/
def mrem (db : Database) (path : String) : MOut Unit :=
  match splitMax2 path with
  | [] => ⟨.error .invalidPath, db, []⟩
  | [c] => ⟨.ok (), dropCollDb db c, [.dropColl c]⟩
  | [c, i] =>
      ⟨.ok (), deleteOneDb db c (maybe_int i), [.deleteOne c (maybe_int i)]⟩
  | c :: i :: rest :: _ =>
      ⟨.ok (),
        updateOneDb db c (maybe_int i)
          (fun d => unsetPathVal d (pySplitDot rest)),
        [.updateOne c (maybe_int i)]⟩

/-- Drop the entry (if any) carrying key `k` from an entry list. -/
def eraseKey (l : List (String × PyVal)) (k : String) :
    List (String × PyVal) :=
  match l with
  | [] => []
  | e :: rest => if e.1 = k then eraseKey rest k else e :: eraseKey rest k

/-- The `lru` package's LRU dict: bounded capacity, entries kept
most-recently-used first. -/
structure LRUCache where
  cap : Nat
  entries : List (String × PyVal)

/-- `path in cache` — a pure containment test (lru-dict's `__contains__`
does not touch recency). -/
def lruContains (c : LRUCache) (k : String) : Bool :=
  (dictGet c.entries k).isSome

/-- `cache[k]` on a present key: the value, with the entry moved to the
front (access refreshes recency). -/
def lruGet (c : LRUCache) (k : String) : Option PyVal × LRUCache :=
  match dictGet c.entries k with
  | none => (none, c)
  | some v =>
      (some v, ⟨c.cap, (k, v) :: eraseKey c.entries k⟩)

/-- `cache[k] = v`: insert at the front (most recent), dropping any old
entry for `k`, and evict from the least-recent end down to capacity. -/
def lruInsert (c : LRUCache) (k : String) (v : PyVal) : LRUCache :=
  ⟨c.cap, ((k, v) :: eraseKey c.entries k).take c.cap⟩

/-- `del cache[k]`: remove the entry; an absent key raises `KeyError`, as
for a plain dict. -/
def lruDel (c : LRUCache) (k : String) : Except MError LRUCache :=
  if lruContains c k then
    .ok ⟨c.cap, eraseKey c.entries k⟩
  else .error .keyError

/-- `CachedMongoManager.uncache(key)` with the default `match=True` on a
single string key — exactly `del self._cache[key]` (the list and
prefix-scan branches are not taken by the mutating operations). -/
def uncache (c : LRUCache) (k : String) : Except MError LRUCache :=
  lruDel c k

/-- Outcome of one cached-manager operation: result (or raised error), the
database, the cache, and the store trace. -/
structure COut (α : Type) where
  result : Except MError α
  db : Database
  cache : LRUCache
  trace : List StoreOp

/-- `CachedMongoManager.get`: on a cache hit return the cached value (the
`self._cache[path]` access refreshes recency); on a miss delegate to the
wrapped `get` and store its result under the exact path key. -/
def cget (db : Database) (cache : LRUCache) (path : String)
    (default : PyVal) : COut PyVal :=
  if lruContains cache path then
    match lruGet cache path with
    | (some v, cache₂) => ⟨.ok v, db, cache₂, []⟩
    | (none, cache₂) => ⟨.error .keyError, db, cache₂, []⟩
  else
    let o := mget db path default
    match o.result with
    | .error e => ⟨.error e, o.db, cache, o.trace⟩
    | .ok v => ⟨.ok v, o.db, lruInsert cache path v, o.trace⟩

/-- The shared shape of every mutating `CachedMongoManager` method:
`res = await super().op(...)`, then `self.uncache(path)`, then return
`res`.  A raise in the wrapped operation propagates before `uncache` runs
(the cache stays untouched); if the wrapped call returns, `uncache(path)`
runs unconditionally — also when the mutation was a no-op — and its
`KeyError` on a never-cached path then propagates. -/
def invalidateAfter {α : Type} (o : MOut α) (cache : LRUCache)
    (path : String) : COut α :=
  match o.result with
  | .error e => ⟨.error e, o.db, cache, o.trace⟩
  | .ok a =>
      match uncache cache path with
      | .error e => ⟨.error e, o.db, cache, o.trace⟩
      | .ok cache₂ => ⟨.ok a, o.db, cache₂, o.trace⟩

/-- `CachedMongoManager.set`: wrapped `set`, then `uncache(path)`. -/
def cset (db : Database) (cache : LRUCache) (path : String) (value : PyVal) :
    COut Unit :=
  invalidateAfter (mset db path value) cache path

/-- `CachedMongoManager.push`: wrapped `push`, then `uncache(path)`,
returning the wrapped result (also when it is `False`). -/
def cpush (db : Database) (cache : LRUCache) (path : String) (value : PyVal)
    (allowDuplicates : Bool) : COut Bool :=
  invalidateAfter (mpush db path value allowDuplicates) cache path

/-- `CachedMongoManager.pull`: wrapped `pull`, then `uncache(path)`. -/
def cpull (db : Database) (cache : LRUCache) (path : String)
    (value : PyVal) : COut Bool :=
  invalidateAfter (mpull db path value) cache path

/-- `CachedMongoManager.rem`: wrapped `rem`, then `uncache(path)`. -/
def crem (db : Database) (cache : LRUCache) (path : String) : COut Unit :=
  invalidateAfter (mrem db path) cache path

/-! ### Helper lemmas -/

theorem splitDotsChars_ne_nil (cs : List Char) : splitDotsChars cs ≠ [] := by
  induction cs with
  | nil => simp [splitDotsChars]
  | cons c rest ih =>
    unfold splitDotsChars
    by_cases hc : c = '.'
    · simp [hc]
    · simp only [if_neg hc]
      cases hsp : splitDotsChars rest <;> simp

theorem pySplitDot_ne_nil (s : String) : pySplitDot s ≠ [] := by
  unfold pySplitDot
  intro h
  exact splitDotsChars_ne_nil s.toList (List.map_eq_nil_iff.mp h)

theorem roundtrip_cons (k : String) (rest : List String) (v d : PyVal) :
    find_in_nested_dict_list (create_nested_dict_list (k :: rest) v)
      (k :: rest) d = v := by
  induction rest generalizing k with
  | nil => simp [create_nested_dict_list, find_in_nested_dict_list, dictGet]
  | cons k₂ rest₂ ih =>
    simp only [create_nested_dict_list, find_in_nested_dict_list, dictGet,
      if_pos]
    exact ih k₂

theorem dictGet_eraseKey_self (l : List (String × PyVal)) (k : String) :
    dictGet (eraseKey l k) k = none := by
  induction l with
  | nil => rfl
  | cons e rest ih =>
    by_cases h : e.1 = k
    · simp [eraseKey, h, ih]
    · simp [eraseKey, h, dictGet, ih]

theorem dictGet_eraseKey_other (l : List (String × PyVal)) (k k₂ : String)
    (h : k₂ ≠ k) :
    dictGet (eraseKey l k) k₂ = dictGet l k₂ := by
  induction l with
  | nil => rfl
  | cons e rest ih =>
    have hk : k ≠ k₂ := fun hh => h hh.symm
    by_cases he : e.1 = k
    · simp [eraseKey, he, dictGet, hk, ih]
    · by_cases he₂ : e.1 = k₂
      · simp [eraseKey, dictGet, he₂, h]
      · simp [eraseKey, he, dictGet, he₂, ih]

theorem eraseKey_of_absent (l : List (String × PyVal)) (k : String)
    (h : dictGet l k = none) : eraseKey l k = l := by
  induction l with
  | nil => rfl
  | cons e rest ih =>
    by_cases he : e.1 = k
    · simp [dictGet, he] at h
    · simp only [dictGet, if_neg he] at h
      simp [eraseKey, he, ih h]

theorem splitMax2_ne_nil (s : String) : splitMax2 s ≠ [] := by
  unfold splitMax2
  rcases h : pySplitDot s with _ | ⟨a, _ | ⟨b, _ | ⟨c, r⟩⟩⟩ <;> simp

theorem mset_error_frame (db : Database) (p : String) (v : PyVal)
    (e : MError) (h : (mset db p v).result = .error e) :
    (mset db p v).db = db ∧
    ((mset db p v).trace.all fun op => !op.isWrite) = true := by
  cases hp : parse_path p with
  | none => simp [mset, hp]
  | some pp =>
    by_cases hb : (decide (pp.fieldPath = "") && !v.isDict) = true
    · simp [mset, hp, hb]
    · simp only [Bool.not_eq_true] at hb
      by_cases h2 : (findOneDb db pp.collection pp.id .idOnly).isSome <;>
        simp [mset, hp, hb, h2] at h

theorem mpush_error_frame (db : Database) (p : String) (v : PyVal)
    (dup : Bool) (e : MError) (h : (mpush db p v dup).result = .error e) :
    (mpush db p v dup).db = db ∧
    ((mpush db p v dup).trace.all fun op => !op.isWrite) = true := by
  cases hp : parse_path p with
  | none => simp [mpush, hp]
  | some pp =>
    by_cases hf : pp.fieldPath = ""
    · simp [mpush, hp, hf]
    · cases hd : findOneDb db pp.collection pp.id .idOnly with
      | none => simp [mpush, hp, hf, hd] at h
      | some doc =>
        by_cases ha : dup
        · simp [mpush, hp, hf, hd, ha] at h
        · simp only [Bool.not_eq_true] at ha
          cases hin : pyIn v
              (find_in_nested_dict (.pydict doc) pp.fieldPath
                (.pylist [])) with
          | error e₂ =>
              simp [mpush, hp, hf, hd, ha, hin, StoreOp.isWrite]
          | ok b => cases b <;> simp [mpush, hp, hf, hd, ha, hin] at h

theorem mpull_error_frame (db : Database) (p : String) (v : PyVal)
    (e : MError) (h : (mpull db p v).result = .error e) :
    (mpull db p v).db = db ∧
    ((mpull db p v).trace.all fun op => !op.isWrite) = true := by
  cases hp : parse_path p with
  | none => simp [mpull, hp]
  | some pp =>
    by_cases hf : pp.fieldPath = ""
    · simp [mpull, hp, hf]
    · cases hin : pyIn v
          (find_in_nested_dict
            (optDocVal
              (findOneDb db pp.collection pp.id (.fieldAndId pp.fieldPath)))
            pp.fieldPath (.pylist [])) with
      | error e₂ => simp [mpull, hp, hf, hin, StoreOp.isWrite]
      | ok b => cases b <;> simp [mpull, hp, hf, hin] at h

theorem mrem_result_ok (db : Database) (p : String) :
    (mrem db p).result = .ok () := by
  rcases h : splitMax2 p with _ | ⟨a, _ | ⟨b, _ | ⟨c, r⟩⟩⟩
  · exact absurd h (splitMax2_ne_nil p)
  all_goals simp [mrem, h]

theorem invalidateAfter_error {α : Type} (o : MOut α) (cache : LRUCache)
    (path : String) (e : MError) (h : o.result = .error e) :
    invalidateAfter o cache path = ⟨.error e, o.db, cache, o.trace⟩ := by
  simp [invalidateAfter, h]

theorem invalidateAfter_ok {α : Type} (o : MOut α) (cache : LRUCache)
    (path : String) (a : α) (h : o.result = .ok a) :
    (invalidateAfter o cache path).db = o.db ∧
    (invalidateAfter o cache path).trace = o.trace ∧
    (invalidateAfter o cache path).cache.entries =
      eraseKey cache.entries path ∧
    (invalidateAfter o cache path).cache.cap = cache.cap ∧
    lruContains (invalidateAfter o cache path).cache path = false := by
  by_cases hc : (dictGet cache.entries path).isSome
  · simp [invalidateAfter, h, uncache, lruDel, lruContains, hc,
      dictGet_eraseKey_self]
  · have hnone : dictGet cache.entries path = none :=
      Option.not_isSome_iff_eq_none.mp hc
    simp [invalidateAfter, h, uncache, lruDel, lruContains, hnone,
      eraseKey_of_absent _ _ hnone]

/-! ### Claim theorems -/

/-- C1 (counterexample): the round-trip
`find_in_nested_dict(create_nested_dict(p, v), p, default=d) == v` fails at
the empty field-path: with `p = ""`, `v = 5` and `d = 0` the assembled
structure is `5` itself, and the lookup splits `""` into the single key
`""`, indexes `5` with it (a caught `TypeError`) and returns the default
`0`, not `5`. -/
theorem C1_roundtrip_empty_counterexample :
    find_in_nested_dict (create_nested_dict "" (.pyint 5)) "" (.pyint 0) =
      .pyint 0 ∧
    PyVal.pyint 0 ≠ PyVal.pyint 5 := by
  refine ⟨rfl, ?_⟩
  simp

/-- C1 (amended): for every NONEMPTY field-path string `p`, every value `v`
and every default `d`,
`find_in_nested_dict(create_nested_dict(p, v), p, default=d) == v`; for the
empty path the lookup instead resolves the single key `""` against `v` and
returns the default when that fails. -/
theorem C1_roundtrip_nonempty (p : String) (hp : p ≠ "") (v d : PyVal) :
    find_in_nested_dict (create_nested_dict p v) p d = v := by
  unfold create_nested_dict find_in_nested_dict
  rw [if_neg hp]
  obtain ⟨k, rest, hk⟩ := List.exists_cons_of_ne_nil (pySplitDot_ne_nil p)
  rw [hk]
  exact roundtrip_cons k rest v d

/-- C1 (witness): the round-trip at the concrete nonempty field-path
`"a.b"` with value `7`. -/
theorem C1_roundtrip_nonempty_witness :
    find_in_nested_dict (create_nested_dict "a.b" (.pyint 7)) "a.b"
      .pynone = .pyint 7 :=
  C1_roundtrip_nonempty "a.b" (by decide) (.pyint 7) .pynone

/-- C5 (counterexample): `lookup(d, "", default)` does NOT return `d`
itself: on `d = {"a": 1}` with default `0` it returns `0`, because the
empty string splits into the single key `""`, which is missing. -/
theorem C5_lookup_empty_counterexample :
    find_in_nested_dict (.pydict [("a", .pyint 1)]) "" (.pyint 0) =
      .pyint 0 ∧
    PyVal.pyint 0 ≠ PyVal.pydict [("a", .pyint 1)] := by
  refine ⟨rfl, ?_⟩
  simp

/-- C5 (amended): `create_nested_dict("", v)` is `v` itself unchanged, for
every `v`; but `find_in_nested_dict(d, "", default)` treats the empty
field-path as the single key `""`: it returns the value of `d`'s `""` key
when `d` is a dict containing one, and the default otherwise — never `d`
itself (unless `d` stores itself under `""`). -/
theorem C5_empty_path_amended :
    (∀ v : PyVal, create_nested_dict "" v = v) ∧
    (∀ (v d : PyVal),
      find_in_nested_dict v "" d =
        match v with
        | .pydict entries => (dictGet entries "").getD d
        | _ => d) := by
  constructor
  · intro v
    rfl
  · intro v d
    cases v <;>
      simp only [find_in_nested_dict, pySplitDot, splitDotsChars,
        String.toList, find_in_nested_dict_list]
    case pydict entries =>
      cases h : dictGet entries "" <;>
        simp [find_in_nested_dict_list, h]

/-- C2 (confirmed): `_parse_path` splits into at most 3 pieces; it fails
(`ValueError`, the spec's `InvalidPathError`) exactly when the path has
fewer than 2 dot-separated segments; on 2 segments the field-path is `""`;
on more, the field-path is the remainder after the first two segments with
its internal dots preserved; and the id segment becomes an
arbitrary-precision integer exactly when Python's `int()` accepts the
whole segment (`pyIntParse`), and otherwise stays the original string
(including the empty string). -/
theorem C2_parse_path_spec (s : String) :
    (splitMax2 s).length ≤ 3 ∧
    (parse_path s = none ↔ (pySplitDot s).length < 2) ∧
    (∀ c i, pySplitDot s = [c, i] →
      parse_path s = some ⟨c, maybe_int i, ""⟩) ∧
    (∀ c i r rs, pySplitDot s = c :: i :: r :: rs →
      parse_path s =
        some ⟨c, maybe_int i, String.intercalate "." (r :: rs)⟩) ∧
    ((∀ n, pyIntParse s = some n → maybe_int s = .pyint n) ∧
      (pyIntParse s = none → maybe_int s = .pystr s)) := by
  refine ⟨?_, ?_, ?_, ?_, ?_, ?_⟩
  · rcases h : pySplitDot s with _ | ⟨a, _ | ⟨b, _ | ⟨c, rest⟩⟩⟩ <;>
      simp [splitMax2, h]
  · rcases h : pySplitDot s with _ | ⟨a, _ | ⟨b, _ | ⟨c, rest⟩⟩⟩ <;>
      simp [parse_path, splitMax2, h]
  · intro c i h
    simp [parse_path, splitMax2, h]
  · intro c i r rs h
    simp [parse_path, splitMax2, h]
  · intro n h
    simp [maybe_int, h]
  · intro h
    simp [maybe_int, h]

/-- C2 (witness): the parser at `"coll"` (too short), `"coll.id.a.b"`
(dots of the remainder preserved), a 27-digit id (no truncation), and the
id conversion on `"id"` and `"123"`. -/
theorem C2_parse_path_spec_witness :
    parse_path "coll" = none ∧
    parse_path "coll.id.a.b" = some ⟨"coll", .pystr "id", "a.b"⟩ ∧
    parse_path "coll.123456789123456789123456789" =
      some ⟨"coll", .pyint 123456789123456789123456789, ""⟩ ∧
    maybe_int "id" = .pystr "id" ∧
    maybe_int "123" = .pyint 123 :=
  ⟨(C2_parse_path_spec "coll").2.1.mpr (by decide),
    (C2_parse_path_spec "coll.id.a.b").2.2.2.1 "coll" "id" "a" ["b"] rfl,
    (C2_parse_path_spec "coll.123456789123456789123456789").2.2.1 "coll"
      "123456789123456789123456789" rfl,
    (C2_parse_path_spec "id").2.2.2.2.2 rfl,
    (C2_parse_path_spec "123").2.2.2.2.1 123 rfl⟩

/-- C3 (code bug): push's duplicate suppression never suppresses.  On an
empty store, `push("coll.id.list", "x", allow_duplicates=False)` creates
the document with `list=["x"]` and returns `True`; the SECOND identical
call also returns `True` and leaves `list=["x","x"]` — because the
membership check reads the document fetched with the `_id`-only
projection, in which the list is never present, so
`find_in_nested_dict(doc, path, default=[])` is always `[]`.  The method's
own docstring says the value is appended only "IF it's not in the list". -/
theorem C3_push_duplicate_not_suppressed :
    (mpush [] "coll.id.list" (.pystr "x") false).result = .ok true ∧
    (mpush [] "coll.id.list" (.pystr "x") false).db =
      [("coll", [[("_id", .pystr "id"), ("list", .pylist [.pystr "x"])]])] ∧
    (mpush (mpush [] "coll.id.list" (.pystr "x") false).db "coll.id.list"
        (.pystr "x") false).result = .ok true ∧
    (mpush (mpush [] "coll.id.list" (.pystr "x") false).db "coll.id.list"
        (.pystr "x") false).db =
      [("coll",
        [[("_id", .pystr "id"),
          ("list", .pylist [.pystr "x", .pystr "x"])]])] :=
  ⟨rfl, rfl, rfl, rfl⟩

/-- C4 (code bug): `rem("")` does not fail — the guard `if not path` after
`path.split(".", 2)` is dead code, because `str.split` always returns a
nonempty list (`"".split(".", 2) == [""]`).  The empty path therefore
takes the one-segment branch and DROPS the collection named `""`, instead
of raising the error the source's own unreachable
`raise ValueError("Path not given. Cannot delete entire database.")`
intends. -/
theorem C4_rem_empty_path_drops_collection :
    splitMax2 "" = [""] ∧
    (mrem [("", [[("_id", .pyint 1)]]), ("other", [[("_id", .pyint 2)]])]
        "").result = .ok () ∧
    (mrem [("", [[("_id", .pyint 1)]]), ("other", [[("_id", .pyint 2)]])]
        "").db = [("other", [[("_id", .pyint 2)]])] ∧
    (mrem [("", [[("_id", .pyint 1)]]), ("other", [[("_id", .pyint 2)]])]
        "").trace = [.dropColl ""] :=
  ⟨rfl, rfl, rfl, rfl⟩

/-- C6 (code bug): `set("coll.id", {"k": 1})` on a fresh store inserts
`{_id: "id", k: 1}` and `get("coll.id.k")` then returns `1` — but
`get("coll.id")` returns the DEFAULT (`None`), not the whole document:
with an empty field-path, `find_in_nested_dict(doc, "")` looks up the key
`""` in the fetched document and falls back to the default, although
`get`'s docstring promises "the whole document is returned". -/
theorem C6_set_then_get_bug :
    (mset [] "coll.id" (.pydict [("k", .pyint 1)])).result = .ok () ∧
    (mset [] "coll.id" (.pydict [("k", .pyint 1)])).db =
      [("coll", [[("_id", .pystr "id"), ("k", .pyint 1)]])] ∧
    (mget (mset [] "coll.id" (.pydict [("k", .pyint 1)])).db "coll.id.k"
        .pynone).result = .ok (.pyint 1) ∧
    (mget (mset [] "coll.id" (.pydict [("k", .pyint 1)])).db "coll.id"
        .pynone).result = .ok .pynone ∧
    PyVal.pynone ≠ PyVal.pydict [("_id", .pystr "id"), ("k", .pyint 1)] :=
  ⟨rfl, rfl, rfl, rfl, by simp⟩

/-- C7 (confirmed): for every parsed path (≥ 2 segments) and every value,
`set` raises `ValueError` (the spec's `InvalidArgumentError`) exactly when
the field-path is empty and the value is not a dict; and in that case
nothing is sent to the store and the database is unchanged — the check
precedes all store traffic. -/
theorem C7_set_invalid_argument_iff (db : Database) (s : String) (v : PyVal)
    (c : String) (id : PyVal) (fp : String)
    (hparse : parse_path s = some ⟨c, id, fp⟩) :
    ((mset db s v).result = .error .invalidArgument ↔
      (fp = "" ∧ v.isDict = false)) ∧
    (fp = "" ∧ v.isDict = false →
      mset db s v = ⟨.error .invalidArgument, db, []⟩) := by
  by_cases h1 : fp = "" ∧ v.isDict = false
  · have hb : (decide (fp = "") && !v.isDict) = true := by
      simp [h1.1, h1.2]
    refine ⟨⟨fun _ => h1, fun _ => ?_⟩, fun _ => ?_⟩ <;>
      simp [mset, hparse, hb]
  · have hb : (decide (fp = "") && !v.isDict) = false := by
      rcases Decidable.not_and_iff_or_not.mp h1 with h | h
      · simp [h]
      · simp at h
        simp [h]
    refine ⟨⟨fun hres => ?_, fun hh => absurd hh h1⟩,
      fun hh => absurd hh h1⟩
    by_cases h2 : (findOneDb db c id .idOnly).isSome <;>
      simp [mset, hparse, hb, h2] at hres

/-- C7 (witness): `set("coll.id", 5)` — empty field-path, non-dict value —
fails with the argument error and leaves the (empty) store untouched. -/
theorem C7_set_invalid_argument_iff_witness :
    mset [] "coll.id" (.pyint 5) = ⟨.error .invalidArgument, [], []⟩ :=
  (C7_set_invalid_argument_iff [] "coll.id" (.pyint 5) "coll" (.pystr "id")
    "" rfl).2 ⟨rfl, rfl⟩

/-- C8 (confirmed): for each mutating cached operation
(`set`/`push`/`pull`/`rem`), cache invalidation runs only after the
wrapped operation returns successfully — when the wrapped operation
raises, the whole call returns that error with the cache (and the store)
exactly as they were, and the trace shows no store write happened; when
the wrapped operation succeeds, the exact-key invalidation of `path` has
occurred (even when the mutation was a no-op, e.g. `push`/`pull`
returning `False`): the entry for `path` is gone from the cache. -/
theorem C8_invalidation_after_mutation (db : Database) (cache : LRUCache)
    (path : String) (v : PyVal) (dup : Bool) :
    ((∀ e, (mset db path v).result = .error e →
        cset db cache path v =
          ⟨.error e, db, cache, (mset db path v).trace⟩ ∧
        ((mset db path v).trace.all fun op => !op.isWrite) = true) ∧
      (∀ u, (mset db path v).result = .ok u →
        (cset db cache path v).db = (mset db path v).db ∧
        (cset db cache path v).cache.entries =
          eraseKey cache.entries path ∧
        lruContains (cset db cache path v).cache path = false)) ∧
    ((∀ e, (mpush db path v dup).result = .error e →
        cpush db cache path v dup =
          ⟨.error e, db, cache, (mpush db path v dup).trace⟩ ∧
        ((mpush db path v dup).trace.all fun op => !op.isWrite) = true) ∧
      (∀ b, (mpush db path v dup).result = .ok b →
        (cpush db cache path v dup).db = (mpush db path v dup).db ∧
        (cpush db cache path v dup).cache.entries =
          eraseKey cache.entries path ∧
        lruContains (cpush db cache path v dup).cache path = false)) ∧
    ((∀ e, (mpull db path v).result = .error e →
        cpull db cache path v =
          ⟨.error e, db, cache, (mpull db path v).trace⟩ ∧
        ((mpull db path v).trace.all fun op => !op.isWrite) = true) ∧
      (∀ b, (mpull db path v).result = .ok b →
        (cpull db cache path v).db = (mpull db path v).db ∧
        (cpull db cache path v).cache.entries =
          eraseKey cache.entries path ∧
        lruContains (cpull db cache path v).cache path = false)) ∧
    ((mrem db path).result = .ok () ∧
      (crem db cache path).db = (mrem db path).db ∧
      (crem db cache path).cache.entries = eraseKey cache.entries path ∧
      lruContains (crem db cache path).cache path = false) := by
  refine ⟨⟨fun e he => ?_, fun u hu => ?_⟩, ⟨fun e he => ?_, fun b hb => ?_⟩,
    ⟨fun e he => ?_, fun b hb => ?_⟩, ?_⟩
  · have hf := mset_error_frame db path v e he
    refine ⟨?_, hf.2⟩
    show invalidateAfter (mset db path v) cache path = _
    rw [invalidateAfter_error _ _ _ _ he, hf.1]
  · obtain ⟨h1, _, h3, _, h5⟩ :=
      invalidateAfter_ok (mset db path v) cache path u hu
    exact ⟨h1, h3, h5⟩
  · have hf := mpush_error_frame db path v dup e he
    refine ⟨?_, hf.2⟩
    show invalidateAfter (mpush db path v dup) cache path = _
    rw [invalidateAfter_error _ _ _ _ he, hf.1]
  · obtain ⟨h1, _, h3, _, h5⟩ :=
      invalidateAfter_ok (mpush db path v dup) cache path b hb
    exact ⟨h1, h3, h5⟩
  · have hf := mpull_error_frame db path v e he
    refine ⟨?_, hf.2⟩
    show invalidateAfter (mpull db path v) cache path = _
    rw [invalidateAfter_error _ _ _ _ he, hf.1]
  · obtain ⟨h1, _, h3, _, h5⟩ :=
      invalidateAfter_ok (mpull db path v) cache path b hb
    exact ⟨h1, h3, h5⟩
  · have hr := mrem_result_ok db path
    obtain ⟨h1, _, h3, _, h5⟩ :=
      invalidateAfter_ok (mrem db path) cache path () hr
    exact ⟨hr, h1, h3, h5⟩

/-- C8 (witness): a failing wrapped `set` (path `"coll"`, too short)
leaves a concrete cache untouched with no store traffic; a succeeding
wrapped `push` on `"coll.id.k"` evicts that exact cached key. -/
theorem C8_invalidation_after_mutation_witness :
    cset [] ⟨4, [("coll.id.k", .pyint 9)]⟩ "coll" (.pyint 1) =
      ⟨.error .invalidPath, [], ⟨4, [("coll.id.k", .pyint 9)]⟩, []⟩ ∧
    lruContains
      (cpush [] ⟨4, [("coll.id.k", .pyint 9)]⟩ "coll.id.k" (.pyint 1)
        true).cache "coll.id.k" = false :=
  ⟨((C8_invalidation_after_mutation [] ⟨4, [("coll.id.k", .pyint 9)]⟩
      "coll" (.pyint 1) true).1.1 .invalidPath rfl).1,
    ((C8_invalidation_after_mutation [] ⟨4, [("coll.id.k", .pyint 9)]⟩
      "coll.id.k" (.pyint 1) true).2.1.2 true rfl).2.2⟩

/-- C9 (counterexample): exact-match invalidation of an absent key is NOT
harmless: on an empty cache, `uncache("k")` executes `del self._cache["k"]`
and raises `KeyError` instead of doing nothing. -/
theorem C9_uncache_absent_raises :
    uncache ⟨4, []⟩ "k" = .error .keyError := rfl

/-- C9 (amended): exact-match invalidation of a key NOT in the cache
raises `KeyError` (leaving the cache as it was, since the deletion never
happens); when the key is present it removes exactly that one entry: the
key's entry is gone and every other key still maps to its old value. -/
theorem C9_uncache_exact_amended (c : LRUCache) (k : String) :
    (lruContains c k = false → uncache c k = .error .keyError) ∧
    (lruContains c k = true →
      uncache c k = .ok ⟨c.cap, eraseKey c.entries k⟩ ∧
      dictGet (eraseKey c.entries k) k = none ∧
      ∀ k₂, k₂ ≠ k →
        dictGet (eraseKey c.entries k) k₂ = dictGet c.entries k₂) := by
  constructor
  · intro h
    simp [uncache, lruDel, h]
  · intro h
    exact ⟨by simp [uncache, lruDel, h], dictGet_eraseKey_self _ _,
      fun k₂ hk => dictGet_eraseKey_other _ _ _ hk⟩

/-- C9 (witness): deleting `"a"` from an empty cache raises `KeyError`;
deleting it from a cache holding `"a"` and `"b"` leaves exactly `"b"`. -/
theorem C9_uncache_exact_amended_witness :
    uncache ⟨4, []⟩ "a" = .error .keyError ∧
    uncache ⟨4, [("a", .pyint 1), ("b", .pyint 2)]⟩ "a" =
      .ok ⟨4, [("b", .pyint 2)]⟩ :=
  ⟨(C9_uncache_exact_amended ⟨4, []⟩ "a").1 rfl,
    ((C9_uncache_exact_amended ⟨4, [("a", .pyint 1), ("b", .pyint 2)]⟩
      "a").2 rfl).1⟩

/-- C10 (confirmed): reads are pure with respect to the store.  For every
parsed path (≥ 2 segments) and default, `MongoManager.get` leaves the
database unchanged and issues exactly one `find_one` (whole-document
projection on an empty field-path, field-only projection otherwise);
`CachedMongoManager.get` never touches the store either — on a hit it
issues no store call at all, and on a miss it issues only the wrapped
read and records the fetched-or-defaulted result in the cache under the
exact path key. -/
theorem C10_get_pure (db : Database) (path : String) (default : PyVal)
    (c : String) (id : PyVal) (fp : String)
    (hparse : parse_path path = some ⟨c, id, fp⟩) :
    (mget db path default).db = db ∧
    (mget db path default).trace =
      [.findOne c id (if fp = "" then .all else .fieldOnly fp)] ∧
    (∀ cache, lruContains cache path = true →
      (cget db cache path default).db = db ∧
      (cget db cache path default).trace = []) ∧
    (∀ cache, lruContains cache path = false →
      (cget db cache path default).db = db ∧
      (cget db cache path default).trace = (mget db path default).trace ∧
      ∃ w, (mget db path default).result = .ok w ∧
        (cget db cache path default).cache = lruInsert cache path w) := by
  refine ⟨by simp [mget, hparse], by simp [mget, hparse],
    fun cache hc => ?_, fun cache hc => ?_⟩
  · obtain ⟨w, hw⟩ := Option.isSome_iff_exists.mp hc
    constructor <;> simp [cget, lruContains, hc, lruGet, hw]
  · have hc₂ : (dictGet cache.entries path).isSome = false := hc
    have hres : (mget db path default).result =
        .ok (find_in_nested_dict
          (optDocVal
            (findOneDb db c id
              (if fp = "" then .all else .fieldOnly fp)))
          fp default) := by
      simp [mget, hparse]
    refine ⟨?_, ?_, ⟨_, hres, ?_⟩⟩ <;>
      simp [cget, lruContains, hc₂, mget, hparse]

/-- C10 (witness): on a one-document store, `get("coll.id.k")` leaves the
store as is; a cached hit makes no store call; a cached miss also leaves
the store unchanged. -/
theorem C10_get_pure_witness :
    (mget [("coll", [[("_id", .pystr "id"), ("k", .pyint 1)]])]
      "coll.id.k" .pynone).db =
      [("coll", [[("_id", .pystr "id"), ("k", .pyint 1)]])] ∧
    (cget [("coll", [[("_id", .pystr "id"), ("k", .pyint 1)]])]
      ⟨4, [("coll.id.k", .pyint 9)]⟩ "coll.id.k" .pynone).trace = [] ∧
    (cget [("coll", [[("_id", .pystr "id"), ("k", .pyint 1)]])] ⟨4, []⟩
      "coll.id.k" .pynone).db =
      [("coll", [[("_id", .pystr "id"), ("k", .pyint 1)]])] :=
  ⟨(C10_get_pure [("coll", [[("_id", .pystr "id"), ("k", .pyint 1)]])]
      "coll.id.k" .pynone "coll" (.pystr "id") "k" rfl).1,
    ((C10_get_pure [("coll", [[("_id", .pystr "id"), ("k", .pyint 1)]])]
      "coll.id.k" .pynone "coll" (.pystr "id") "k" rfl).2.2.1
      ⟨4, [("coll.id.k", .pyint 9)]⟩ rfl).2,
    ((C10_get_pure [("coll", [[("_id", .pystr "id"), ("k", .pyint 1)]])]
      "coll.id.k" .pynone "coll" (.pystr "id") "k" rfl).2.2.2
      ⟨4, []⟩ rfl).1⟩

end MongoMgr
